import Mathlib

/-!
# Product catalog store (`src/app.js`)

A shallow embedding of the browser-side product catalog: the module-level
variables of `app.js` become the fields of `Store`, every function that reads
or writes them becomes a function on `Store`, and the two things the program
cannot decide by itself (what `fetch` answers, what the form fields hold) are
explicit arguments.

Conventions of the embedding

* A JavaScript number is a `JSNum`: `NaN`, the two infinities, or a rational.
  The program only compares numbers and tests them for truthiness, so the
  rationals stand for the finite doubles.
* Product ids are integers (`Int`) that are doubles; `Math.max(...) + 1` is the
  sum rounded to the nearest double (`roundToDouble`), exact up to `2 ^ 53`.
* Strings are `String`; `toLowerCase` folds the ASCII letters.
* `Array.prototype.sort` is the stable insertion sort `arraySort`; for a
  consistent comparator every stable sort returns the same array, and for an
  inconsistent one (a `NaN` key) the result depends on the engine.
* A handler that finishes in a `setTimeout` callback (`updateProduct`,
  `createProduct`) is one step: the store after the callback has run.
-/

namespace Catalog

/-! ## JavaScript values -/

/-- A JavaScript number as this program observes it. -/
inductive JSNum where
  | nan
  | negInf
  | fin (q : ℚ)
  | posInf
  deriving DecidableEq

namespace JSNum

/-- The JavaScript `a < b` on numbers. -/
def lt : JSNum → JSNum → Bool
  | nan, _ => false
  | _, nan => false
  | negInf, negInf => false
  | negInf, _ => true
  | fin _, negInf => false
  | fin a, fin b => decide (a < b)
  | fin _, posInf => true
  | posInf, _ => false

/-- The JavaScript `a <= b` on numbers. -/
def le : JSNum → JSNum → Bool
  | nan, _ => false
  | _, nan => false
  | negInf, _ => true
  | fin _, negInf => false
  | fin a, fin b => decide (a ≤ b)
  | fin _, posInf => true
  | posInf, posInf => true
  | posInf, _ => false

/-- Truthiness of a number: everything but `NaN` and zero. -/
def truthy : JSNum → Bool
  | nan => false
  | fin q => decide (q ≠ 0)
  | _ => true

end JSNum

/-- Result of `String.prototype.toLowerCase` (ASCII letters). -/
def toLowerCase (s : String) : String := String.mk (s.data.map Char.toLower)

/-- Substring test on character lists: does `t` occur in `s`? -/
def includesChars : List Char → List Char → Bool
  | [], t => t.isEmpty
  | c :: s, t => t.isPrefixOf (c :: s) || includesChars s t

/-- Result of `String.prototype.includes`. -/
def includes (s t : String) : Bool := includesChars s.data t.data

/-- The JavaScript `a < b` on strings: lexicographic on the code units. -/
def strLt : List Char → List Char → Bool
  | _, [] => false
  | [], _ :: _ => true
  | a :: s, b :: t => decide (a.toNat < b.toNat) || (decide (a.toNat = b.toNat) && strLt s t)

/-- Truthiness of a string: non-empty. -/
def strTruthy (s : String) : Bool := !s.data.isEmpty

/-- The values the sort comparator puts in `valueA` and `valueB`. -/
inductive SortValue where
  | undefined
  | number (n : JSNum)
  | string (s : String)
  deriving DecidableEq

/-- The JavaScript `valueA < valueB`; the comparator always compares two values
of the same column, and `undefined < undefined` is false. -/
def SortValue.lt : SortValue → SortValue → Bool
  | .number a, .number b => a.lt b
  | .string a, .string b => strLt a.data b.data
  | _, _ => false

/-! ## Data model -/

/-- The `category` object of a product. -/
structure Category where
  id : JSNum
  name : String
  deriving DecidableEq

/-- A catalog item. -/
structure Product where
  id : Int
  title : String
  price : JSNum
  description : String
  category : Option Category
  images : List String
  deriving DecidableEq

/-- Values of `sortDirection`: `'asc'` or `'desc'`. -/
inductive SortDirection where
  | asc
  | desc
  deriving DecidableEq

/-- What `localStorage.getItem(STORAGE_KEY)` holds. -/
inductive Stored where
  | missing
  | malformed
  | json (products : List Product)
  deriving DecidableEq

/-- What an awaited `fetch` followed by `response.json()` yields: a response
with its status and parsed body, or a thrown exception. -/
inductive FetchResult (β : Type) where
  | response (status : Nat) (body : β)
  | exception

/-- The `response.ok` flag: status in the range 200 to 299. -/
def responseOk (status : Nat) : Bool := decide (200 ≤ status) && decide (status ≤ 299)

/-- An alert shown by `showMessage` or `showCreateMessage`. -/
structure Message where
  text : String
  type : String
  deriving DecidableEq

/-- The module-level variables of `app.js`, the value of the search box, the
local storage entry and counters of the outside effects. -/
structure Store where
  allProducts : List Product
  filteredProducts : List Product
  currentPage : Nat
  itemsPerPage : Nat
  sortColumn : Option String
  sortDirection : SortDirection
  searchInput : String
  storage : Stored
  storageWrites : Nat
  remoteCalls : Nat
  loadError : Bool

/-- The store when the script has been evaluated and nothing has run yet. -/
def initialStore (storage : Stored) : Store :=
  { allProducts := []
    filteredProducts := []
    currentPage := 1
    itemsPerPage := 10
    sortColumn := none
    sortDirection := .asc
    searchInput := ""
    storage := storage
    storageWrites := 0
    remoteCalls := 0
    loadError := false }

/-! ## Local mirror -/

/-- The function `loadFromStorage`: the parsed entry, or `null` (here `none`)
when the key is absent or the text does not parse. -/
def loadFromStorage (storage : Stored) : Option (List Product) :=
  match storage with
  | .missing => none
  | .malformed => none
  | .json products => some products

/-- The function `saveToStorage`: the entry becomes the serialised `data`. -/
def saveToStorage (s : Store) (data : List Product) : Store :=
  { s with storage := .json data, storageWrites := s.storageWrites + 1 }

/-! ## View projection -/

/-- Stable insertion used by `arraySort`: `a` goes in front of the first
element the comparator does not put before it. -/
def insertSorted {α : Type} (cmp : α → α → Int) (a : α) : List α → List α
  | [] => [a]
  | b :: l => if cmp a b ≤ 0 then a :: b :: l else b :: insertSorted cmp a l

/-- Stable sort with a comparator, standing for `Array.prototype.sort`. It is
the array every engine returns when the comparator is a consistent order; with
an inconsistent comparator (a `NaN` key) engines may return another order. -/
def arraySort {α : Type} (cmp : α → α → Int) : List α → List α
  | [] => []
  | a :: l => insertSorted cmp a (arraySort cmp l)

/-- Result of `Array.prototype.slice(start, stop)` for non-negative bounds. -/
def slice {α : Type} (l : List α) (start stop : Nat) : List α :=
  (l.drop start).take (stop - start)

/-- `Math.ceil(totalItems / itemsPerPage)` for a positive `itemsPerPage`. -/
def ceilDiv (totalItems itemsPerPage : Nat) : Nat :=
  (totalItems + itemsPerPage - 1) / itemsPerPage

/-- The value the comparator reads from a product for the sort column. -/
def sortValue (sortColumn : String) (p : Product) : SortValue :=
  if sortColumn = "price" then .number p.price
  else if sortColumn = "title" then .string (toLowerCase p.title)
  else .undefined

/-- The comparator passed to `products.sort` in `displayProducts`. -/
def compareProducts (sortColumn : String) (sortDirection : SortDirection)
    (a b : Product) : Int :=
  let valueA := sortValue sortColumn a
  let valueB := sortValue sortColumn b
  if valueA.lt valueB then (if sortDirection = .asc then -1 else 1)
  else if valueB.lt valueA then (if sortDirection = .asc then 1 else -1)
  else 0

/-- The array `products` of `displayProducts` once the sort has been applied. -/
def sortedProducts (s : Store) : List Product :=
  match s.sortColumn with
  | none => s.filteredProducts
  | some column =>
    if strTruthy column then
      arraySort (compareProducts column s.sortDirection) s.filteredProducts
    else s.filteredProducts

/-- What `displayProducts` computes before it writes the table. -/
structure View where
  rows : List Product
  totalItems : Nat
  totalPages : Nat
  startIndex : Nat
  endIndex : Nat
  deriving DecidableEq

/-- The function `displayProducts`: sort, then cut the window of the current page. -/
def displayProducts (s : Store) : View :=
  let products := sortedProducts s
  let totalItems := products.length
  let totalPages := ceilDiv totalItems s.itemsPerPage
  let startIndex := (s.currentPage - 1) * s.itemsPerPage
  let endIndex := min (startIndex + s.itemsPerPage) totalItems
  { rows := slice products startIndex endIndex
    totalItems := totalItems
    totalPages := totalPages
    startIndex := startIndex
    endIndex := endIndex }

/-- The products `exportToCSV` writes, one line each. -/
def exportToCSV (s : Store) : List Product :=
  let products :=
    match s.sortColumn with
    | none => s.filteredProducts
    | some column =>
      if strTruthy column then
        arraySort (fun a b =>
          let valueA := sortValue column a
          let valueB := sortValue column b
          if valueA.lt valueB then (if s.sortDirection = .asc then -1 else 1)
          else if valueB.lt valueA then (if s.sortDirection = .asc then 1 else -1)
          else 0) s.filteredProducts
      else s.filteredProducts
  let startIndex := (s.currentPage - 1) * s.itemsPerPage
  let endIndex := min (startIndex + s.itemsPerPage) products.length
  slice products startIndex endIndex

/-! ## View parameters -/

/-- The function `sortProducts`. -/
def sortProducts (s : Store) (column : String) : Store :=
  if s.sortColumn = some column then
    { s with
      sortDirection := if s.sortDirection = .asc then .desc else .asc
      currentPage := 1 }
  else
    { s with sortColumn := some column, sortDirection := .asc, currentPage := 1 }

/-- The function `filterProducts`. -/
def filterProducts (s : Store) (searchTerm : String) : Store :=
  { s with
    filteredProducts := s.allProducts.filter (fun product =>
      includes (toLowerCase product.title) (toLowerCase searchTerm))
    currentPage := 1 }

/-- The `input` listener of the search box: the box holds `value`. -/
def searchInputHandler (s : Store) (value : String) : Store :=
  filterProducts { s with searchInput := value } value

/-- The `click` listener of the clear button. -/
def clearSearchHandler (s : Store) : Store :=
  filterProducts { s with searchInput := "" } ""

/-- The `change` listener of the page-size select; `n` is the parsed value. -/
def itemsPerPageHandler (s : Store) (n : Nat) : Store :=
  { s with itemsPerPage := n, currentPage := 1 }

/-- The `click` listener `generatePagination` puts on a page link; no link
exists when there is at most one page. -/
def pageLinkHandler (s : Store) (page : Nat) : Store :=
  let totalPages := (displayProducts s).totalPages
  if totalPages ≤ 1 then s
  else if decide (page > 0) && decide (page ≤ totalPages) then { s with currentPage := page }
  else s

/-! ## Initial load -/

/-- The function `loadProducts`; `r` is what the list request yields if it is sent. -/
def loadProducts (s : Store) (r : FetchResult (List Product)) : Store :=
  let fromRemote : Store :=
    let s0 := { s with remoteCalls := s.remoteCalls + 1 }
    match r with
    | .response status products =>
      if !responseOk status then { s0 with loadError := true }
      else
        let s1 := { s0 with allProducts := products, filteredProducts := products }
        saveToStorage s1 s1.allProducts
    | .exception => { s0 with loadError := true }
  match loadFromStorage s.storage with
  | some storedProducts =>
    if storedProducts.length > 0 then
      { s with allProducts := storedProducts, filteredProducts := storedProducts }
    else fromRemote
  | none => fromRemote

/-! ## Mutations with local fallback -/

/-- Result of `Array.prototype.findIndex`; `none` stands for `-1`. -/
def findIndex {α : Type} (pred : α → Bool) : List α → Option Nat
  | [] => none
  | a :: l => if pred a then some 0 else (findIndex pred l).map (· + 1)

/-- The fields `updateProduct` reads from the detail form: `id` is the number
the id field denotes under `==`, `price` the result of `parseFloat`. -/
structure UpdateForm where
  id : Int
  title : String
  price : JSNum
  description : String

/-- The function `updateProduct`; `r` is what the `PUT` request yields. The
three branches are the three blocks of the source, in its order. -/
def updateProduct (s : Store) (r : FetchResult Product) (f : UpdateForm) : Store × Message :=
  let s0 := { s with remoteCalls := s.remoteCalls + 1 }
  match r with
  | .response status _ =>
    if responseOk status || status == 200 then
      match findIndex (fun p => p.id == f.id) s0.allProducts with
      | none => (s0, ⟨"Cập nhật sản phẩm thành công!", "success"⟩)
      | some index =>
        match s0.allProducts.get? index with
        | none => (s0, ⟨"Cập nhật sản phẩm thành công!", "success"⟩)
        | some old =>
          let s1 := { s0 with
            allProducts := s0.allProducts.set index
              { old with title := f.title, price := f.price, description := f.description } }
          let s2 := saveToStorage s1 s1.allProducts
          let searchTerm := toLowerCase s2.searchInput
          let s3 := { s2 with
            filteredProducts := s2.allProducts.filter (fun product =>
              includes (toLowerCase product.title) searchTerm) }
          (s3, ⟨"Cập nhật sản phẩm thành công!", "success"⟩)
    else
      match findIndex (fun p => p.id == f.id) s0.allProducts with
      | none => (s0, ⟨"Cập nhật local thành công!", "warning"⟩)
      | some index =>
        match s0.allProducts.get? index with
        | none => (s0, ⟨"Cập nhật local thành công!", "warning"⟩)
        | some old =>
          let s1 := { s0 with
            allProducts := s0.allProducts.set index
              { old with title := f.title, price := f.price, description := f.description } }
          let s2 := saveToStorage s1 s1.allProducts
          let searchTerm := toLowerCase s2.searchInput
          let s3 := { s2 with
            filteredProducts := s2.allProducts.filter (fun product =>
              includes (toLowerCase product.title) searchTerm) }
          (s3, ⟨"Cập nhật local thành công!", "warning"⟩)
  | .exception =>
    match findIndex (fun p => p.id == f.id) s0.allProducts with
    | none => (s0, ⟨"Đã cập nhật dữ liệu local!", "info"⟩)
    | some index =>
      match s0.allProducts.get? index with
      | none => (s0, ⟨"Đã cập nhật dữ liệu local!", "info"⟩)
      | some old =>
        let s1 := { s0 with
          allProducts := s0.allProducts.set index
            { old with title := f.title, price := f.price, description := f.description } }
        let s2 := saveToStorage s1 s1.allProducts
        let searchTerm := toLowerCase s2.searchInput
        let s3 := { s2 with
          filteredProducts := s2.allProducts.filter (fun product =>
            includes (toLowerCase product.title) searchTerm) }
        (s3, ⟨"Đã cập nhật dữ liệu local!", "info"⟩)

/-- The function `getCategoryName`: the fixed table of five categories. -/
def getCategoryName (categoryId : JSNum) : String :=
  if categoryId = .fin 1 then "Clothes"
  else if categoryId = .fin 2 then "Electronics"
  else if categoryId = .fin 3 then "Furniture"
  else if categoryId = .fin 4 then "Shoes"
  else if categoryId = .fin 5 then "Miscellaneous"
  else "Unknown"

/-- The spacing of the doubles around the magnitude `a`: the least power of two
`ulp`, starting from the given one, with `a / ulp < 2 ^ 53`. -/
def doubleUlp : Nat → Nat → Nat → Nat
  | 0, ulp, _ => ulp
  | fuel + 1, ulp, a => if a / ulp < 2 ^ 53 then ulp else doubleUlp fuel (2 * ulp) a

/-- The integer `n` rounded to the nearest double, ties to the even
significand: the value of a sum of two doubles whose exact sum is `n`. Every
integer up to `2 ^ 53` in magnitude is a double. -/
def roundToDouble (n : Int) : Int :=
  let a := n.natAbs
  if a ≤ 2 ^ 53 then n
  else
    let ulp := doubleUlp a 1 a
    let q := a / ulp
    let r := a % ulp
    let rounded : Nat :=
      if 2 * r < ulp then q * ulp
      else if ulp < 2 * r then (q + 1) * ulp
      else if q % 2 = 0 then q * ulp else (q + 1) * ulp
    if n < 0 then -(rounded : Int) else (rounded : Int)

/-- The function `getNextId`: `Math.max` over the ids, plus one in double
arithmetic. -/
def getNextId (allProducts : List Product) : Int :=
  if allProducts.length = 0 then 1
  else
    match allProducts.map (fun p => p.id) with
    | [] => 1
    | id :: ids =>
      let maxId := ids.foldl max id
      roundToDouble (maxId + 1)

/-- The fields `createProduct` reads from the create form: the strings are
trimmed, `price` is the result of `parseFloat`, `categoryId` of `parseInt`. -/
structure CreateForm where
  title : String
  price : JSNum
  description : String
  categoryId : JSNum
  imageUrl : String

/-- The function `createProduct`; `r` is what the `POST` request yields. -/
def createProduct (s : Store) (r : FetchResult Product) (f : CreateForm) : Store × Message :=
  if !strTruthy f.title || !f.price.truthy || !f.categoryId.truthy || !strTruthy f.imageUrl then
    (s, ⟨"Vui lòng điền đầy đủ các trường bắt buộc!", "danger"⟩)
  else
    let s0 := { s with remoteCalls := s.remoteCalls + 1 }
    match r with
    | .response status responseData =>
      if responseOk status || status == 201 then
        let newProduct := responseData
        let s1 := { s0 with allProducts := s0.allProducts ++ [newProduct] }
        let s2 := saveToStorage s1 s1.allProducts
        let searchTerm := toLowerCase s2.searchInput
        let s3 := { s2 with
          filteredProducts := s2.allProducts.filter (fun product =>
            includes (toLowerCase product.title) searchTerm) }
        ({ s3 with currentPage := 1 }, ⟨"Tạo sản phẩm thành công!", "success"⟩)
      else
        let mockProduct : Product :=
          { id := getNextId s0.allProducts
            title := f.title
            price := f.price
            description := if strTruthy f.description then f.description else "No description"
            category := some { id := f.categoryId, name := getCategoryName f.categoryId }
            images := [f.imageUrl] }
        let s1 := { s0 with allProducts := s0.allProducts ++ [mockProduct] }
        let s2 := saveToStorage s1 s1.allProducts
        let searchTerm := toLowerCase s2.searchInput
        let s3 := { s2 with
          filteredProducts := s2.allProducts.filter (fun product =>
            includes (toLowerCase product.title) searchTerm) }
        ({ s3 with currentPage := 1 }, ⟨"Tạo sản phẩm local thành công!", "warning"⟩)
    | .exception =>
      let mockProduct : Product :=
        { id := getNextId s0.allProducts
          title := f.title
          price := f.price
          description := if strTruthy f.description then f.description else "No description"
          category := some { id := f.categoryId, name := getCategoryName f.categoryId }
          images := [f.imageUrl] }
      let s1 := { s0 with allProducts := s0.allProducts ++ [mockProduct] }
      let s2 := saveToStorage s1 s1.allProducts
      let searchTerm := toLowerCase s2.searchInput
      let s3 := { s2 with
        filteredProducts := s2.allProducts.filter (fun product =>
          includes (toLowerCase product.title) searchTerm) }
      ({ s3 with currentPage := 1 }, ⟨"Đã tạo sản phẩm local!", "info"⟩)

/-! ## The store as a state machine -/

/-- The events that change the store after the initial load. -/
inductive Action where
  | search (value : String)
  | clearSearch
  | sort (column : String)
  | pageSize (n : Nat)
  | page (n : Nat)
  | update (r : FetchResult Product) (f : UpdateForm)
  | create (r : FetchResult Product) (f : CreateForm)

/-- One event applied to the store. -/
def step (s : Store) : Action → Store
  | .search value => searchInputHandler s value
  | .clearSearch => clearSearchHandler s
  | .sort column => sortProducts s column
  | .pageSize n => itemsPerPageHandler s n
  | .page n => pageLinkHandler s n
  | .update r f => (updateProduct s r f).1
  | .create r f => (createProduct s r f).1

/-- A sequence of events applied in order. -/
def run (s : Store) (actions : List Action) : Store := actions.foldl step s

/-! ## Auxiliary definitions for the statements -/

/-- The list in which the first element satisfying `pred` has been replaced by
its image under `g`. -/
def replaceFirst {α : Type} (pred : α → Bool) (g : α → α) : List α → List α
  | [] => []
  | a :: l => if pred a then g a :: l else a :: replaceFirst pred g l

/-- The record `old` with the three form fields written over it. -/
def patched (f : UpdateForm) (old : Product) : Product :=
  { old with title := f.title, price := f.price, description := f.description }

/-- The store every branch of `updateProduct` leaves when the id is found. -/
def updatedStore (s : Store) (f : UpdateForm) : Store :=
  let all := replaceFirst (fun p => p.id == f.id) (patched f) s.allProducts
  { s with
    remoteCalls := s.remoteCalls + 1
    allProducts := all
    storage := .json all
    storageWrites := s.storageWrites + 1
    filteredProducts := all.filter (fun product =>
      includes (toLowerCase product.title) (toLowerCase s.searchInput)) }

/-- The filtered collection is the title match of the whole collection for the
term in the search box. -/
def SearchInv (s : Store) : Prop :=
  s.filteredProducts = s.allProducts.filter (fun product =>
    includes (toLowerCase product.title) (toLowerCase s.searchInput))

/-- The create form passes the required-field check. -/
def CreateForm.valid (f : CreateForm) : Bool :=
  strTruthy f.title && f.price.truthy && f.categoryId.truthy && strTruthy f.imageUrl

/-- Example product: a shirt at 10. -/
def shirt : Product := ⟨1, "Shirt", .fin 10, "", none, []⟩

/-- Example product: a shoe at 5. -/
def shoe : Product := ⟨2, "Shoe", .fin 5, "", none, []⟩

/-- Example store holding the shirt and the shoe, nothing filtered out. -/
def shop : Store :=
  { initialStore .missing with allProducts := [shirt, shoe], filteredProducts := [shirt, shoe] }

/-- The record `createProduct` synthesises when the request fails. -/
def mockProduct (s : Store) (f : CreateForm) : Product :=
  { id := getNextId s.allProducts
    title := f.title
    price := f.price
    description := if strTruthy f.description then f.description else "No description"
    category := some { id := f.categoryId, name := getCategoryName f.categoryId }
    images := [f.imageUrl] }

/-- The request failed: an exception, or a status that is neither `ok` nor 201. -/
def FetchResult.failed {β : Type} : FetchResult β → Bool
  | .response status _ => !(responseOk status || status == 201)
  | .exception => true

/-- Example collection: `n` shirts with the ids 1 to `n`. -/
def shirts : Nat → List Product
  | 0 => []
  | n + 1 => shirts n ++ [⟨(n : Int) + 1, "Shirt", .fin 10, "", none, []⟩]

/-- Example product whose id is `2 ^ 53`, the first integer after which the
doubles are two apart. -/
def bigProduct : Product := ⟨9007199254740992, "Big", .fin 1, "", none, []⟩

/-- Example store holding only the product with the id `2 ^ 53`. -/
def bigShop : Store :=
  { initialStore .missing with allProducts := [bigProduct], filteredProducts := [bigProduct] }

/-- Example run: three products priced 3, 5 and 1 come from local storage, the
second is saved from the detail form with an empty price field (`parseFloat`
gives `NaN`; the request throws), then the price column is clicked. -/
def blankPriceRun : Store :=
  run (loadProducts (initialStore (.json
      [⟨1, "Shirt", .fin 3, "", none, []⟩, ⟨2, "Shoe", .fin 5, "", none, []⟩,
        ⟨3, "Hat", .fin 1, "", none, []⟩])) .exception)
    [.update .exception ⟨2, "Shoe", .nan, ""⟩, .sort "price"]

/-- Example run: eleven shirts come from local storage, the user searches for
"shirt", opens page 2 and renames the only product shown there to "Hat" (the
request throws). -/
def renameOnLastPage : Store :=
  run (loadProducts (initialStore (.json (shirts 11))) .exception)
    [.search "shirt", .page 2, .update .exception ⟨11, "Hat", .fin 10, ""⟩]

/-! ## Lemmas on the update path -/

theorem findIndex_eq_none {α : Type} (pred : α → Bool) :
    ∀ l : List α, findIndex pred l = none ↔ ∀ x ∈ l, pred x = false
  | [] => by simp [findIndex]
  | a :: l => by
    by_cases h : pred a = true
    · simp [findIndex, h]
    · simp [findIndex, h, findIndex_eq_none pred l]

theorem findIndex_eq_some {α : Type} (pred : α → Bool) (g : α → α) :
    ∀ (l : List α) (i : Nat), findIndex pred l = some i →
      ∃ old, l.get? i = some old ∧ pred old = true ∧ l.set i (g old) = replaceFirst pred g l
  | [], i, h => by simp [findIndex] at h
  | a :: l, i, h => by
    by_cases hp : pred a = true
    · simp [findIndex, hp] at h
      subst h
      exact ⟨a, by simp, hp, by simp [replaceFirst, hp]⟩
    · simp [findIndex, hp] at h
      obtain ⟨j, hj, rfl⟩ := h
      obtain ⟨old, h1, h2, h3⟩ := findIndex_eq_some pred g l j hj
      exact ⟨old, by simpa using h1, h2, by simp [replaceFirst, hp, h3]⟩

theorem replaceFirst_of_forall_false {α : Type} (pred : α → Bool) (g : α → α) :
    ∀ l : List α, (∀ x ∈ l, pred x = false) → replaceFirst pred g l = l
  | [], _ => rfl
  | a :: l, h => by
    have ha : pred a = false := h a (by simp)
    simp [replaceFirst, ha, replaceFirst_of_forall_false pred g l (fun x hx => h x (by simp [hx]))]

theorem updateProduct_fst (s : Store) (r : FetchResult Product) (f : UpdateForm) :
    (updateProduct s r f).1 =
      if f.id ∈ s.allProducts.map (fun p => p.id) then updatedStore s f
      else { s with remoteCalls := s.remoteCalls + 1 } := by
  cases hfi : findIndex (fun p => p.id == f.id) s.allProducts with
  | none =>
    have hall := (findIndex_eq_none _ _).1 hfi
    have hmem : ¬ f.id ∈ s.allProducts.map (fun p => p.id) := by
      intro hm
      obtain ⟨p, hp, hpid⟩ := List.mem_map.1 hm
      have := hall p hp
      simp [hpid] at this
    rw [if_neg hmem]
    cases r with
    | response status body =>
      by_cases hs : (responseOk status || status == 200) = true
      · simp only [updateProduct, hs, hfi, if_true]
      · simp only [updateProduct, hs, hfi, if_false]
        rfl
    | exception => simp only [updateProduct, hfi]
  | some i =>
    obtain ⟨old, h1, h2, h3⟩ := findIndex_eq_some _ (patched f) _ _ hfi
    have hmem : f.id ∈ s.allProducts.map (fun p => p.id) := by
      have hin : old ∈ s.allProducts := List.get?_mem h1
      exact List.mem_map.2 ⟨old, hin, by simpa using h2⟩
    rw [if_pos hmem]
    simp only [patched] at h3
    cases r with
    | response status body =>
      by_cases hs : (responseOk status || status == 200) = true
      · simp only [updateProduct, hs, hfi, h1, if_true, saveToStorage, h3, updatedStore, patched]
      · simp only [updateProduct, hs, hfi, h1, saveToStorage, h3, updatedStore, patched]
        rfl
    | exception => simp only [updateProduct, hfi, h1, saveToStorage, h3, updatedStore, patched]

theorem map_id_replaceFirst (f : UpdateForm) :
    ∀ l : List Product,
      (replaceFirst (fun p => p.id == f.id) (patched f) l).map (fun p => p.id) = l.map (fun p => p.id)
  | [] => rfl
  | a :: l => by
    by_cases h : (a.id == f.id) = true
    · simp [replaceFirst, h, patched]
    · simp [replaceFirst, h, map_id_replaceFirst f l]

theorem filter_id_replaceFirst (f : UpdateForm) :
    ∀ l : List Product, (l.map (fun p => p.id)).Nodup → f.id ∈ l.map (fun p => p.id) →
      ∃ old ∈ l, old.id = f.id ∧
        (replaceFirst (fun p => p.id == f.id) (patched f) l).filter (fun q => decide (q.id = f.id))
          = [patched f old]
  | [], _, hmem => by simp at hmem
  | a :: l, hnd, hmem => by
    rw [List.map_cons, List.nodup_cons] at hnd
    by_cases h : a.id = f.id
    · refine ⟨a, by simp, h, ?_⟩
      have hrest : l.filter (fun q => decide (q.id = f.id)) = [] := by
        rw [List.filter_eq_nil_iff]
        intro q hq hqid
        apply hnd.1
        rw [h]
        exact List.mem_map.2 ⟨q, hq, by simpa using hqid⟩
      have hb : (a.id == f.id) = true := by simp [h]
      simp only [replaceFirst, hb, if_true]
      rw [List.filter_cons_of_pos (by simp [patched, h]), hrest]
    · have hmem' : f.id ∈ l.map (fun p => p.id) := by
        rw [List.map_cons, List.mem_cons] at hmem
        rcases hmem with hm | hm
        · exact absurd hm.symm h
        · exact hm
      obtain ⟨old, ho, hoid, hfil⟩ := filter_id_replaceFirst f l hnd.2 hmem'
      refine ⟨old, by simp [ho], hoid, ?_⟩
      have hb : (a.id == f.id) = false := by simp [h]
      simp only [replaceFirst, hb, Bool.false_eq_true, if_false]
      rw [List.filter_cons_of_neg (by simp [h])]
      exact hfil

/-! ## Lemmas on the search filter -/

theorem includesChars_iff : ∀ s t : List Char,
    includesChars s t = true ↔ ∃ u v, s = u ++ t ++ v
  | [], t => by
    simp only [includesChars, List.isEmpty_iff]
    constructor
    · rintro rfl
      exact ⟨[], [], rfl⟩
    · rintro ⟨u, v, h⟩
      have h' := congrArg List.length h
      simp only [List.length_nil, List.length_append] at h'
      exact List.length_eq_zero.1 (by omega)
  | c :: s, t => by
    simp only [includesChars, Bool.or_eq_true, includesChars_iff s t]
    constructor
    · rintro (h | ⟨u, v, h⟩)
      · obtain ⟨v, hv⟩ := List.isPrefixOf_iff_prefix.1 h
        exact ⟨[], v, by simpa using hv.symm⟩
      · exact ⟨c :: u, v, by simp [h]⟩
    · rintro ⟨u, v, h⟩
      cases u with
      | nil =>
        left
        exact List.isPrefixOf_iff_prefix.2 ⟨v, by simpa using h.symm⟩
      | cons d u =>
        right
        refine ⟨u, v, ?_⟩
        simp only [List.cons_append, List.cons.injEq] at h
        exact h.2

theorem createProduct_searchInv (s : Store) (r : FetchResult Product) (f : CreateForm)
    (h : f.valid = true ∨ SearchInv s) : SearchInv (createProduct s r f).1 := by
  by_cases hv : (!strTruthy f.title || !f.price.truthy || !f.categoryId.truthy
      || !strTruthy f.imageUrl) = true
  · have hs : SearchInv s := by
      rcases h with h | h
      · simp only [CreateForm.valid, Bool.and_eq_true] at h
        simp [h] at hv
      · exact h
    simp only [createProduct, hv, if_true]
    exact hs
  · simp only [createProduct, hv]
    cases r with
    | response status body =>
      by_cases hok : (responseOk status || status == 201) = true
      · simp only [hok, if_true]
        rfl
      · simp only [hok]
        rfl
    | exception => rfl

theorem updateProduct_searchInv (s : Store) (r : FetchResult Product) (f : UpdateForm)
    (h : f.id ∈ s.allProducts.map (fun p => p.id) ∨ SearchInv s) :
    SearchInv (updateProduct s r f).1 := by
  rw [updateProduct_fst]
  by_cases hm : f.id ∈ s.allProducts.map (fun p => p.id)
  · rw [if_pos hm]
    rfl
  · rw [if_neg hm]
    rcases h with h | h
    · exact absurd h hm
    · exact h

theorem includesChars_nil : ∀ s : List Char, includesChars s [] = true
  | [] => rfl
  | c :: s => by simp [includesChars]

theorem filter_empty_term (l : List Product) :
    l.filter (fun product => includes (toLowerCase product.title) (toLowerCase "")) = l := by
  rw [List.filter_eq_self]
  intro p _
  exact includesChars_nil _

theorem searchInv_loadProducts (storage : Stored) (r : FetchResult (List Product)) :
    SearchInv (loadProducts (initialStore storage) r) := by
  have hnil : ∀ s : Store, s.allProducts = [] → s.filteredProducts = [] → SearchInv s := by
    intro s ha hf
    simp only [SearchInv, ha, hf, List.filter_nil]
  have hall : ∀ s : Store, s.searchInput = "" → s.filteredProducts = s.allProducts →
      SearchInv s := by
    intro s hs hf
    simp only [SearchInv, hs, hf]
    exact (filter_empty_term s.allProducts).symm
  have hremote : SearchInv (match r with
      | .response status products =>
        if (!responseOk status) = true then
          { ({ initialStore storage with
                remoteCalls := (initialStore storage).remoteCalls + 1 } : Store) with
            loadError := true }
        else
          saveToStorage
            { ({ initialStore storage with
                  remoteCalls := (initialStore storage).remoteCalls + 1 } : Store) with
              allProducts := products, filteredProducts := products } products
      | .exception =>
        { ({ initialStore storage with
              remoteCalls := (initialStore storage).remoteCalls + 1 } : Store) with
          loadError := true }) := by
    cases r with
    | response status products =>
      by_cases hok : (!responseOk status) = true
      · simp only [hok, if_true]
        exact hnil _ rfl rfl
      · simp only [hok, if_false]
        exact hall _ rfl rfl
    | exception => exact hnil _ rfl rfl
  cases storage with
  | missing => exact hremote
  | malformed => exact hremote
  | json stored =>
    by_cases hlen : stored.length > 0
    · have h : loadProducts (initialStore (.json stored)) r =
          { initialStore (.json stored) with
            allProducts := stored, filteredProducts := stored } := by
        simp only [loadProducts, loadFromStorage, initialStore, hlen, if_true]
      rw [h]
      exact hall _ rfl rfl
    · have h : loadProducts (initialStore (.json stored)) r = _ :=
        if_neg hlen
      rw [h]
      exact hremote

theorem searchInv_step (s : Store) (a : Action) (h : SearchInv s) : SearchInv (step s a) := by
  cases a with
  | search value => rfl
  | clearSearch => rfl
  | sort column =>
    simp only [step, sortProducts]
    split <;> exact h
  | pageSize n => exact h
  | page n =>
    simp only [step, pageLinkHandler]
    split
    · exact h
    · split
      · exact h
      · exact h
  | update r f => exact updateProduct_searchInv s r f (Or.inr h)
  | create r f => exact createProduct_searchInv s r f (Or.inr h)

theorem searchInv_run : ∀ (actions : List Action) (s : Store), SearchInv s →
    SearchInv (run s actions)
  | [], _, h => h
  | a :: actions, s, h => searchInv_run actions (step s a) (searchInv_step s a h)

/-! ## Lemmas on local synthesis -/

theorem foldl_max_mem : ∀ (xs : List Int) (x : Int), xs.foldl max x ∈ x :: xs
  | [], x => by simp
  | y :: ys, x => by
    simp only [List.foldl_cons]
    have h := foldl_max_mem ys (max x y)
    rw [List.mem_cons] at h
    rcases h with h | h
    · rw [h]
      rcases max_choice x y with hm | hm <;> rw [hm] <;> simp
    · simp [h]

theorem le_foldl_max : ∀ (xs : List Int) (x : Int), ∀ y ∈ x :: xs, y ≤ xs.foldl max x
  | [], x, y, hy => by
    simp only [List.mem_singleton] at hy
    simp [hy]
  | z :: zs, x, y, hy => by
    simp only [List.foldl_cons]
    have hmx : max x z ≤ zs.foldl max (max x z) := le_foldl_max zs (max x z) _ (by simp)
    rw [List.mem_cons, List.mem_cons] at hy
    rcases hy with hy | hy | hy
    · rw [hy]
      exact le_trans (le_max_left x z) hmx
    · rw [hy]
      exact le_trans (le_max_right x z) hmx
    · exact le_foldl_max zs (max x z) y (by simp [hy])

theorem getNextId_nil : getNextId [] = 1 := rfl

theorem roundToDouble_of_safe (n : Int) (h : n.natAbs ≤ 2 ^ 53) : roundToDouble n = n := by
  simp only [roundToDouble, h, if_true]

theorem getNextId_spec (l : List Product) (hl : l ≠ [])
    (hsafe : ∀ q ∈ l, q.id.natAbs < 2 ^ 53) :
    ∃ m ∈ l, (∀ q ∈ l, q.id ≤ m.id) ∧ getNextId l = m.id + 1 := by
  cases l with
  | nil => exact absurd rfl hl
  | cons a l =>
    have hmem := foldl_max_mem (l.map (fun p => p.id)) a.id
    have hle := le_foldl_max (l.map (fun p => p.id)) a.id
    rw [← List.map_cons (fun p => p.id) a l] at hmem hle
    obtain ⟨m, hm, hmid⟩ := List.mem_map.1 hmem
    refine ⟨m, hm, ?_, ?_⟩
    · intro q hq
      rw [hmid]
      exact hle q.id (List.mem_map.2 ⟨q, hq, rfl⟩)
    · have hm' := hsafe m hm
      have hround : roundToDouble (m.id + 1) = m.id + 1 :=
        roundToDouble_of_safe _ (by omega)
      rw [hmid] at hround
      simp [getNextId, hround, hmid]

theorem getNextId_not_mem (l : List Product) (hsafe : ∀ q ∈ l, q.id.natAbs < 2 ^ 53) :
    getNextId l ∉ l.map (fun p => p.id) := by
  intro h
  cases l with
  | nil => simp at h
  | cons a l =>
    obtain ⟨m, _, hle, hid⟩ := getNextId_spec (a :: l) (by simp) hsafe
    obtain ⟨q, hq, hqid⟩ := List.mem_map.1 h
    have := hle q hq
    omega

theorem createProduct_fst_of_failed (s : Store) (r : FetchResult Product) (f : CreateForm)
    (hvalid : f.valid = true) (hfail : r.failed = true) :
    (createProduct s r f).1 =
      { s with
        remoteCalls := s.remoteCalls + 1
        allProducts := s.allProducts ++ [mockProduct s f]
        storage := .json (s.allProducts ++ [mockProduct s f])
        storageWrites := s.storageWrites + 1
        filteredProducts := (s.allProducts ++ [mockProduct s f]).filter (fun product =>
          includes (toLowerCase product.title) (toLowerCase s.searchInput))
        currentPage := 1 } := by
  have hv : (!strTruthy f.title || !f.price.truthy || !f.categoryId.truthy
      || !strTruthy f.imageUrl) = false := by
    simp only [CreateForm.valid, Bool.and_eq_true] at hvalid
    simp [hvalid]
  cases r with
  | response status body =>
    have hok : (responseOk status || status == 201) = false := by
      simpa [FetchResult.failed] using hfail
    simp only [createProduct, hv, hok, Bool.false_eq_true, if_false, saveToStorage, mockProduct]
  | exception =>
    simp only [createProduct, hv, Bool.false_eq_true, if_false, saveToStorage, mockProduct]

theorem createProduct_fallback_nodup_of_safe (s : Store) (r : FetchResult Product)
    (f : CreateForm) (hvalid : f.valid = true) (hfail : r.failed = true)
    (hsafe : ∀ q ∈ s.allProducts, q.id.natAbs < 2 ^ 53)
    (hunique : (s.allProducts.map (fun p => p.id)).Nodup) :
    ((createProduct s r f).1.allProducts.map (fun p => p.id)).Nodup := by
  rw [createProduct_fst_of_failed s r f hvalid hfail]
  simp only [List.map_append, List.map_cons, List.map_nil]
  rw [List.nodup_append]
  refine ⟨hunique, List.nodup_singleton _, ?_⟩
  intro x hx hx'
  rw [List.mem_singleton] at hx'
  subst hx'
  exact getNextId_not_mem s.allProducts hsafe hx

/-! ## Lemmas on sorting and paging -/

theorem insertSorted_perm {α : Type} (cmp : α → α → Int) (a : α) :
    ∀ l : List α, (insertSorted cmp a l).Perm (a :: l)
  | [] => List.Perm.refl _
  | b :: l => by
    by_cases h : cmp a b ≤ 0
    · simp only [insertSorted, h, if_true]
      exact List.Perm.refl _
    · simp only [insertSorted, h, if_false]
      exact ((insertSorted_perm cmp a l).cons b).trans (List.Perm.swap a b l)

theorem arraySort_perm {α : Type} (cmp : α → α → Int) :
    ∀ l : List α, (arraySort cmp l).Perm l
  | [] => List.Perm.refl _
  | a :: l => (insertSorted_perm cmp a (arraySort cmp l)).trans ((arraySort_perm cmp l).cons a)

theorem length_sortedProducts (s : Store) :
    (sortedProducts s).length = s.filteredProducts.length := by
  unfold sortedProducts
  split
  · rfl
  · split
    · exact (arraySort_perm _ _).length_eq
    · rfl

theorem ceilDiv_eq_ceil (n p : Nat) (hp : 0 < p) : ceilDiv n p = ⌈(n : ℚ) / p⌉₊ := by
  have hpq : (0 : ℚ) < p := by exact_mod_cast hp
  apply le_antisymm
  · unfold ceilDiv
    have h1 : (n : ℚ) / p ≤ ⌈(n : ℚ) / p⌉₊ := Nat.le_ceil _
    rw [div_le_iff₀ hpq] at h1
    have h2 : n ≤ ⌈(n : ℚ) / p⌉₊ * p := by exact_mod_cast h1
    generalize ⌈(n : ℚ) / p⌉₊ = k at h2 ⊢
    have h3 : (n + p - 1) / p < k + 1 := by
      rw [Nat.div_lt_iff_lt_mul hp]
      have : (k + 1) * p = k * p + p := by ring
      omega
    omega
  · rw [Nat.ceil_le, div_le_iff₀ hpq]
    have h1 : n + p - 1 < (n + p - 1) / p * p + p := Nat.lt_div_mul_add hp
    have h2 : n ≤ ceilDiv n p * p := by
      unfold ceilDiv
      generalize (n + p - 1) / p * p = m at h1 ⊢
      omega
    exact_mod_cast h2

theorem jsLe_of_lt {a b : JSNum} (h : a.lt b = true) : a.le b = true := by
  cases a <;> cases b <;> simp_all [JSNum.lt, JSNum.le]
  exact le_of_lt h

theorem jsLe_of_not_lt {a b : JSNum} (ha : a ≠ .nan) (hb : b ≠ .nan)
    (h : b.lt a = false) : a.le b = true := by
  cases a <;> cases b <;> simp_all [JSNum.lt, JSNum.le]

theorem jsLe_trans {a b c : JSNum} (hab : a.le b = true) (hbc : b.le c = true) :
    a.le c = true := by
  cases a <;> cases b <;> cases c <;> simp_all [JSNum.lt, JSNum.le]
  exact le_trans hab hbc

theorem insertSorted_pairwise {α : Type} (cmp : α → α → Int) (R : α → α → Prop)
    (P : α → Prop)
    (hle : ∀ a b, P a → P b → cmp a b ≤ 0 → R a b)
    (hgt : ∀ a b, P a → P b → ¬ cmp a b ≤ 0 → R b a)
    (htrans : ∀ a b c, R a b → R b c → R a c) (a : α) (ha : P a) :
    ∀ l : List α, (∀ x ∈ l, P x) → l.Pairwise R → (insertSorted cmp a l).Pairwise R
  | [], _, _ => by simp [insertSorted]
  | b :: l, hP, hl => by
    have hb : P b := hP b (by simp)
    rw [List.pairwise_cons] at hl
    by_cases h : cmp a b ≤ 0
    · simp only [insertSorted, h, if_true]
      have hab : R a b := hle a b ha hb h
      refine List.Pairwise.cons ?_ (List.Pairwise.cons hl.1 hl.2)
      intro x hx
      rw [List.mem_cons] at hx
      rcases hx with hx | hx
      · rw [hx]; exact hab
      · exact htrans a b x hab (hl.1 x hx)
    · simp only [insertSorted, h, if_false]
      have hba : R b a := hgt a b ha hb h
      refine List.Pairwise.cons ?_
        (insertSorted_pairwise cmp R P hle hgt htrans a ha l (fun x hx => hP x (by simp [hx])) hl.2)
      intro x hx
      have hx' := (insertSorted_perm cmp a l).mem_iff.1 hx
      rw [List.mem_cons] at hx'
      rcases hx' with hx' | hx'
      · rw [hx']; exact hba
      · exact hl.1 x hx'

theorem arraySort_pairwise {α : Type} (cmp : α → α → Int) (R : α → α → Prop)
    (P : α → Prop)
    (hle : ∀ a b, P a → P b → cmp a b ≤ 0 → R a b)
    (hgt : ∀ a b, P a → P b → ¬ cmp a b ≤ 0 → R b a)
    (htrans : ∀ a b c, R a b → R b c → R a c) :
    ∀ l : List α, (∀ x ∈ l, P x) → (arraySort cmp l).Pairwise R
  | [], _ => by simp [arraySort]
  | a :: l, hP => by
    simp only [arraySort]
    apply insertSorted_pairwise cmp R P hle hgt htrans a (hP a (by simp))
    · intro x hx
      exact hP x (by simp [(arraySort_perm cmp l).mem_iff.1 hx])
    · exact arraySort_pairwise cmp R P hle hgt htrans l (fun x hx => hP x (by simp [hx]))

theorem compareProducts_price_asc (a b : Product) :
    compareProducts "price" .asc a b =
      if a.price.lt b.price then -1 else if b.price.lt a.price then 1 else 0 := by
  simp [compareProducts, sortValue, SortValue.lt]

theorem compareProducts_price_desc (a b : Product) :
    compareProducts "price" .desc a b =
      if a.price.lt b.price then 1 else if b.price.lt a.price then -1 else 0 := by
  simp [compareProducts, sortValue, SortValue.lt]

theorem arraySort_price_asc (l : List Product) (h : ∀ p ∈ l, p.price ≠ .nan) :
    (arraySort (compareProducts "price" .asc) l).Pairwise
      (fun a b => a.price.le b.price = true) := by
  apply arraySort_pairwise _ _ (fun p => p.price ≠ .nan) _ _ _ l h
  · intro a b ha hb hc
    rw [compareProducts_price_asc] at hc
    by_cases h1 : a.price.lt b.price = true
    · exact jsLe_of_lt h1
    · by_cases h2 : b.price.lt a.price = true
      · simp [h1, h2] at hc
      · exact jsLe_of_not_lt ha hb (by simpa using h2)
  · intro a b ha hb hc
    rw [compareProducts_price_asc] at hc
    by_cases h1 : a.price.lt b.price = true
    · simp [h1] at hc
    · by_cases h2 : b.price.lt a.price = true
      · exact jsLe_of_lt h2
      · simp [h1, h2] at hc
  · intro a b c hab hbc
    exact jsLe_trans hab hbc

theorem arraySort_price_desc (l : List Product) (h : ∀ p ∈ l, p.price ≠ .nan) :
    (arraySort (compareProducts "price" .desc) l).Pairwise
      (fun a b => b.price.le a.price = true) := by
  apply arraySort_pairwise _ _ (fun p => p.price ≠ .nan) _ _ _ l h
  · intro a b ha hb hc
    rw [compareProducts_price_desc] at hc
    by_cases h1 : a.price.lt b.price = true
    · simp [h1] at hc
    · exact jsLe_of_not_lt hb ha (by simpa using h1)
  · intro a b ha hb hc
    rw [compareProducts_price_desc] at hc
    by_cases h1 : a.price.lt b.price = true
    · exact jsLe_of_lt h1
    · by_cases h2 : b.price.lt a.price = true
      · simp [h1, h2] at hc
      · simp [h1, h2] at hc
  · intro a b c hab hbc
    exact jsLe_trans hbc hab

theorem sortedProducts_price (s : Store) (d : SortDirection)
    (hcol : s.sortColumn = some "price") (hdir : s.sortDirection = d) :
    sortedProducts s = arraySort (compareProducts "price" d) s.filteredProducts := by
  simp [sortedProducts, hcol, hdir, strTruthy]

/-! ## Lemmas on the frame of an update and on the initial load -/

theorem updateProduct_allProducts (s : Store) (r : FetchResult Product) (f : UpdateForm) :
    (updateProduct s r f).1.allProducts =
      replaceFirst (fun p => p.id == f.id) (patched f) s.allProducts := by
  rw [updateProduct_fst]
  by_cases hm : f.id ∈ s.allProducts.map (fun p => p.id)
  · rw [if_pos hm]
    rfl
  · rw [if_neg hm]
    symm
    apply replaceFirst_of_forall_false
    intro x hx
    cases hb : (x.id == f.id)
    · rfl
    · exact absurd (List.mem_map.2 ⟨x, hx, by simpa using hb⟩) hm

theorem updateProduct_snd_mem (s : Store) (r : FetchResult Product) (f : UpdateForm) :
    (updateProduct s r f).2 ∈
      [(⟨"Cập nhật sản phẩm thành công!", "success"⟩ : Message),
        ⟨"Cập nhật local thành công!", "warning"⟩,
        ⟨"Đã cập nhật dữ liệu local!", "info"⟩] := by
  cases r with
  | response status body =>
    cases hs : (responseOk status || status == 200) with
    | true =>
      simp only [updateProduct, hs, if_true]
      split
      · simp
      · split <;> simp
    | false =>
      simp only [updateProduct, hs, Bool.false_eq_true, if_false]
      split
      · simp
      · split <;> simp
  | exception =>
    simp only [updateProduct]
    split
    · simp
    · split <;> simp

theorem length_replaceFirst {α : Type} (pred : α → Bool) (g : α → α) :
    ∀ l : List α, (replaceFirst pred g l).length = l.length
  | [] => rfl
  | a :: l => by
    by_cases h : pred a = true
    · simp [replaceFirst, h]
    · simp [replaceFirst, h, length_replaceFirst pred g l]

theorem get?_replaceFirst (f : UpdateForm) :
    ∀ (l : List Product) (i : Nat) (p : Product), l.get? i = some p →
      ∃ q, (replaceFirst (fun p => p.id == f.id) (patched f) l).get? i = some q ∧
        q.id = p.id ∧ q.category = p.category ∧ q.images = p.images ∧
        ((p.id ≠ f.id ∨ ∃ j p', j < i ∧ l.get? j = some p' ∧ p'.id = f.id) → q = p)
  | [], i, p, h => by simp at h
  | a :: l, i, p, h => by
    by_cases ha : a.id = f.id
    · have hb : (a.id == f.id) = true := by simp [ha]
      simp only [replaceFirst, hb, if_true]
      cases i with
      | zero =>
        simp only [List.get?_cons_zero, Option.some.injEq] at h
        subst h
        refine ⟨patched f a, rfl, rfl, rfl, rfl, ?_⟩
        rintro (h | ⟨j, p', hj, _, _⟩)
        · exact absurd ha h
        · omega
      | succ k =>
        simp only [List.get?_cons_succ] at h
        exact ⟨p, by simpa using h, rfl, rfl, rfl, fun _ => rfl⟩
    · have hb : (a.id == f.id) = false := by simp [ha]
      simp only [replaceFirst, hb, Bool.false_eq_true, if_false]
      cases i with
      | zero =>
        simp only [List.get?_cons_zero, Option.some.injEq] at h
        subst h
        exact ⟨a, rfl, rfl, rfl, rfl, fun _ => rfl⟩
      | succ k =>
        simp only [List.get?_cons_succ] at h
        obtain ⟨q, hq, h1, h2, h3, h4⟩ := get?_replaceFirst f l k p h
        refine ⟨q, by simpa using hq, h1, h2, h3, ?_⟩
        rintro (hne | ⟨j, p', hj, hget, hid⟩)
        · exact h4 (Or.inl hne)
        · cases j with
          | zero =>
            simp only [List.get?_cons_zero, Option.some.injEq] at hget
            subst hget
            exact absurd hid ha
          | succ j' =>
            simp only [List.get?_cons_succ] at hget
            exact h4 (Or.inr ⟨j', p', by omega, hget, hid⟩)

theorem loadProducts_of_mirror (s : Store) (r : FetchResult (List Product))
    (stored : List Product) (hload : loadFromStorage s.storage = some stored)
    (hne : stored ≠ []) :
    loadProducts s r = { s with allProducts := stored, filteredProducts := stored } := by
  have hlen : stored.length > 0 := List.length_pos.2 hne
  simp only [loadProducts, hload, hlen, if_true]

theorem loadProducts_of_no_mirror (s : Store) (r : FetchResult (List Product))
    (hload : loadFromStorage s.storage = none ∨ loadFromStorage s.storage = some []) :
    loadProducts s r =
      match r with
      | .response status products =>
        if responseOk status then
          { s with
            remoteCalls := s.remoteCalls + 1
            allProducts := products
            filteredProducts := products
            storage := .json products
            storageWrites := s.storageWrites + 1 }
        else { s with remoteCalls := s.remoteCalls + 1, loadError := true }
      | .exception => { s with remoteCalls := s.remoteCalls + 1, loadError := true } := by
  have hbody : loadProducts s r =
      (let s0 : Store := { s with remoteCalls := s.remoteCalls + 1 }
       match r with
       | .response status products =>
         if !responseOk status then { s0 with loadError := true }
         else
           let s1 : Store := { s0 with allProducts := products, filteredProducts := products }
           saveToStorage s1 s1.allProducts
       | .exception => { s0 with loadError := true }) := by
    rcases hload with h | h
    · simp only [loadProducts, h]
    · simp only [loadProducts, h, List.length_nil, gt_iff_lt, Nat.lt_irrefl, if_false]
  rw [hbody]
  cases r with
  | response status products =>
    cases hok : responseOk status with
    | true => simp only [hok, Bool.not_true, Bool.false_eq_true, if_false, if_true, saveToStorage]
    | false => simp only [hok, Bool.not_false, if_true, Bool.false_eq_true, if_false]
  | exception => rfl

/-! ## Claims -/

/-- C1: when the ids are unique and the form's id is present, after `updateProduct`
(whatever the request yielded) exactly one record carries that id, and its
title, price and description are those of the form. -/
theorem updateProduct_leaves_one_patched_record (s : Store) (r : FetchResult Product)
    (f : UpdateForm) (hunique : (s.allProducts.map (fun p => p.id)).Nodup)
    (hpresent : f.id ∈ s.allProducts.map (fun p => p.id)) :
    ∃ p, (updateProduct s r f).1.allProducts.filter (fun q => decide (q.id = f.id)) = [p] ∧
      p.title = f.title ∧ p.price = f.price ∧ p.description = f.description := by
  rw [updateProduct_fst, if_pos hpresent]
  obtain ⟨old, _, _, hfil⟩ := filter_id_replaceFirst f s.allProducts hunique hpresent
  exact ⟨patched f old, hfil, rfl, rfl, rfl⟩

/-- C1 at the example store: the shirt is renamed while the request throws. -/
theorem updateProduct_leaves_one_patched_record_witness :
    (shop.allProducts.map (fun p => p.id)).Nodup ∧ (1 : Int) ∈ shop.allProducts.map (fun p => p.id) ∧
    ∃ p, (updateProduct shop .exception ⟨1, "NewShirt", .fin 12, ""⟩).1.allProducts.filter
        (fun q => decide (q.id = 1)) = [p] ∧
      p.title = "NewShirt" ∧ p.price = .fin 12 ∧ p.description = "" :=
  ⟨by decide, by decide,
    updateProduct_leaves_one_patched_record shop .exception ⟨1, "NewShirt", .fin 12, ""⟩
      (by decide) (by decide)⟩

/-- C2: the store `updateProduct` leaves does not depend on what the request
yielded; the three outcomes differ in the message only. -/
theorem updateProduct_same_store_on_every_outcome (s : Store) (f : UpdateForm) :
    (∀ r₁ r₂ : FetchResult Product, (updateProduct s r₁ f).1 = (updateProduct s r₂ f).1) ∧
    (∀ status body, responseOk status = true →
      (updateProduct s (.response status body) f).2 = ⟨"Cập nhật sản phẩm thành công!", "success"⟩) ∧
    (∀ status body, responseOk status = false →
      (updateProduct s (.response status body) f).2 = ⟨"Cập nhật local thành công!", "warning"⟩) ∧
    (updateProduct s .exception f).2 = ⟨"Đã cập nhật dữ liệu local!", "info"⟩ := by
  refine ⟨fun r₁ r₂ => by rw [updateProduct_fst, updateProduct_fst], ?_, ?_, ?_⟩
  · intro status body hok
    simp only [updateProduct, hok, Bool.true_or, if_true]
    split
    · rfl
    · split <;> rfl
  · intro status body hok
    have h200 : (status == 200) = false := by
      cases h : status == 200
      · rfl
      · have : status = 200 := by simpa using h
        subst this
        simp [responseOk] at hok
    simp only [updateProduct, hok, h200, Bool.or_self, Bool.false_eq_true, if_false]
    split
    · rfl
    · split <;> rfl
  · simp only [updateProduct]
    split
    · rfl
    · split <;> rfl

/-- C2 at the example store: status 200 reports the success message. -/
theorem updateProduct_same_store_on_every_outcome_witness :
    responseOk 200 = true ∧
    (updateProduct shop (.response 200 shirt) ⟨1, "NewShirt", .fin 12, ""⟩).2 =
      ⟨"Cập nhật sản phẩm thành công!", "success"⟩ :=
  ⟨by decide,
    (updateProduct_same_store_on_every_outcome shop ⟨1, "NewShirt", .fin 12, ""⟩).2.1 200 shirt
      (by decide)⟩

/-- C3: `filterProducts term` makes `filteredProducts` the products of
`allProducts`, in order, whose lower-cased title contains the lower-cased term;
`updateProduct` and `createProduct` recompute it for the term in the search box
whenever they change `allProducts` and leave both untouched otherwise, so the
equation holds in every state reached from the initial load; `includes` is the
substring relation; over Shirt and Shoe the term "sh" keeps both and "shirt"
keeps only id 1. -/
theorem filteredProducts_is_title_match (s : Store) :
    (∀ term, (filterProducts s term).allProducts = s.allProducts ∧
      (filterProducts s term).filteredProducts = s.allProducts.filter (fun product =>
        includes (toLowerCase product.title) (toLowerCase term))) ∧
    (∀ value, SearchInv (searchInputHandler s value) ∧
      (searchInputHandler s value).searchInput = value) ∧
    (∀ r f, (f.id ∈ s.allProducts.map (fun p => p.id) ∨ SearchInv s) →
      SearchInv (updateProduct s r f).1) ∧
    (∀ r f, (f.valid = true ∨ SearchInv s) → SearchInv (createProduct s r f).1) ∧
    (∀ storage r actions, SearchInv (run (loadProducts (initialStore storage) r) actions)) ∧
    (∀ title term : String,
      includes title term = true ↔ ∃ u v, title.data = u ++ term.data ++ v) ∧
    (filterProducts shop "sh").filteredProducts = [shirt, shoe] ∧
    (filterProducts shop "shirt").filteredProducts = [shirt] :=
  ⟨fun _ => ⟨rfl, rfl⟩, fun _ => ⟨rfl, rfl⟩,
    fun r f h => updateProduct_searchInv s r f h,
    fun r f h => createProduct_searchInv s r f h,
    fun storage r actions => searchInv_run actions _ (searchInv_loadProducts storage r),
    fun title term => includesChars_iff title.data term.data,
    by decide, by decide⟩

/-- C3 at the example store: a rename of the shirt under the term "shirt" (the
request throws) leaves the filtered collection equal to the title match. -/
theorem filteredProducts_is_title_match_witness :
    (1 : Int) ∈ (searchInputHandler shop "shirt").allProducts.map (fun p => p.id) ∧
    SearchInv (updateProduct (searchInputHandler shop "shirt") .exception
      ⟨1, "Hat", .fin 12, ""⟩).1 :=
  ⟨by decide,
    (filteredProducts_is_title_match (searchInputHandler shop "shirt")).2.2.1 .exception
      ⟨1, "Hat", .fin 12, ""⟩ (Or.inl (by decide))⟩

/-- C4: when a required field of the create form is missing (empty title, price
zero or `NaN`, category id zero or `NaN`, empty image URL), `createProduct`
shows the validation error and returns the store as it was: no request is
sent, `allProducts` and `filteredProducts` are unchanged. -/
theorem createProduct_rejects_missing_field (s : Store) (r : FetchResult Product) (f : CreateForm)
    (hmissing : f.title = "" ∨ f.price = .nan ∨ f.price = .fin 0 ∨
      f.categoryId = .nan ∨ f.categoryId = .fin 0 ∨ f.imageUrl = "") :
    createProduct s r f = (s, ⟨"Vui lòng điền đầy đủ các trường bắt buộc!", "danger"⟩) ∧
    (createProduct s r f).1.remoteCalls = s.remoteCalls ∧
    (createProduct s r f).1.allProducts = s.allProducts ∧
    (createProduct s r f).1.allProducts.length = s.allProducts.length ∧
    (createProduct s r f).1.filteredProducts = s.filteredProducts := by
  have hv : (!strTruthy f.title || !f.price.truthy || !f.categoryId.truthy
      || !strTruthy f.imageUrl) = true := by
    rcases hmissing with h | h | h | h | h | h <;> rw [h] <;> simp [strTruthy, JSNum.truthy]
  have h : createProduct s r f = (s, ⟨"Vui lòng điền đầy đủ các trường bắt buộc!", "danger"⟩) := by
    simp only [createProduct, hv, if_true]
  rw [h]
  exact ⟨rfl, rfl, rfl, rfl, rfl⟩

/-- C4 at the example store: a create form without a title. -/
theorem createProduct_rejects_missing_field_witness :
    createProduct shop .exception ⟨"", .fin 3, "", .fin 1, "http://x"⟩ =
      (shop, ⟨"Vui lòng điền đầy đủ các trường bắt buộc!", "danger"⟩) :=
  (createProduct_rejects_missing_field shop .exception ⟨"", .fin 3, "", .fin 1, "http://x"⟩
    (Or.inl rfl)).1

/-- C5 (amended): when every id is a safe integer (magnitude below `2 ^ 53`), for
a valid create form and a failed request (error status or exception)
`createProduct` appends exactly one record at the end of `allProducts`; it
carries the form's title and price, and its id is 1 when the collection was
empty and otherwise one more than the largest existing id. -/
theorem createProduct_fallback_appends_next_id (s : Store) (r : FetchResult Product)
    (f : CreateForm) (hvalid : f.valid = true) (hfail : r.failed = true)
    (hsafe : ∀ q ∈ s.allProducts, q.id.natAbs < 2 ^ 53) :
    ∃ p : Product, (createProduct s r f).1.allProducts = s.allProducts ++ [p] ∧
      p.title = f.title ∧ p.price = f.price ∧
      (s.allProducts = [] → p.id = 1) ∧
      (s.allProducts ≠ [] →
        ∃ m ∈ s.allProducts, (∀ q ∈ s.allProducts, q.id ≤ m.id) ∧ p.id = m.id + 1) := by
  rw [createProduct_fst_of_failed s r f hvalid hfail]
  refine ⟨mockProduct s f, rfl, rfl, rfl, ?_, ?_⟩
  · intro h
    simp [mockProduct, h, getNextId]
  · intro h
    exact getNextId_spec s.allProducts h hsafe

/-- C5 (amended) at the example store: the synthesised record gets the id 3. -/
theorem createProduct_fallback_appends_next_id_witness :
    (⟨"Hat", .fin 3, "", .fin 1, "http://x"⟩ : CreateForm).valid = true ∧
    (FetchResult.exception : FetchResult Product).failed = true ∧
    (∀ q ∈ shop.allProducts, q.id.natAbs < 2 ^ 53) ∧
    ∃ p : Product,
      (createProduct shop .exception ⟨"Hat", .fin 3, "", .fin 1, "http://x"⟩).1.allProducts =
        shop.allProducts ++ [p] ∧
      p.title = "Hat" ∧ p.price = .fin 3 ∧
      (shop.allProducts = [] → p.id = 1) ∧
      (shop.allProducts ≠ [] →
        ∃ m ∈ shop.allProducts, (∀ q ∈ shop.allProducts, q.id ≤ m.id) ∧ p.id = m.id + 1) :=
  ⟨by decide, by decide, by decide,
    createProduct_fallback_appends_next_id shop .exception ⟨"Hat", .fin 3, "", .fin 1, "http://x"⟩
      (by decide) (by decide) (by decide)⟩

/-- C5 fails as stated: when the only product has the id `2 ^ 53`, the record a
failed create appends has the id `2 ^ 53` again, because the sum
`2 ^ 53 + 1` rounds to `2 ^ 53`; it is not one more than the largest id. -/
theorem createProduct_fallback_id_not_max_plus_one :
    (⟨"Hat", .fin 3, "", .fin 1, "http://x"⟩ : CreateForm).valid = true ∧
    (FetchResult.exception : FetchResult Product).failed = true ∧
    (createProduct bigShop .exception ⟨"Hat", .fin 3, "", .fin 1, "http://x"⟩).1.allProducts.map
      (fun p => p.id) = [9007199254740992, 9007199254740992] ∧
    ¬ ∃ p : Product,
      (createProduct bigShop .exception ⟨"Hat", .fin 3, "", .fin 1, "http://x"⟩).1.allProducts =
        bigShop.allProducts ++ [p] ∧
      ∃ m ∈ bigShop.allProducts, (∀ q ∈ bigShop.allProducts, q.id ≤ m.id) ∧ p.id = m.id + 1 := by
  have hids : (createProduct bigShop .exception ⟨"Hat", .fin 3, "", .fin 1, "http://x"⟩).1.allProducts.map
      (fun p => p.id) = [9007199254740992, 9007199254740992] := by decide
  refine ⟨by decide, by decide, hids, ?_⟩
  rintro ⟨p, hp, m, hm, _, hid⟩
  rw [hp] at hids
  have hm' : m = bigProduct := by simpa [bigShop, initialStore] using hm
  have hp' : p.id = 9007199254740992 := by
    simpa [bigShop, initialStore, bigProduct] using hids
  rw [hp', hm'] at hid
  revert hid
  decide

/-- C6 fails on the code: the one id of the example store is `2 ^ 53`; `getNextId`
returns `2 ^ 53`, an id in use, and after a create whose request answers 500
the ids of `allProducts` are `2 ^ 53` twice. -/
theorem getNextId_returns_id_in_use :
    (bigShop.allProducts.map (fun p => p.id)).Nodup ∧
    (FetchResult.response 500 bigProduct).failed = true ∧
    getNextId bigShop.allProducts = 9007199254740992 ∧
    getNextId bigShop.allProducts ∈ bigShop.allProducts.map (fun p => p.id) ∧
    ¬ ((createProduct bigShop (.response 500 bigProduct)
      ⟨"Hat", .fin 3, "", .fin 1, "http://x"⟩).1.allProducts.map (fun p => p.id)).Nodup := by
  refine ⟨by decide, by decide, by decide, by decide, by decide⟩

/-- C7 (amended): for a positive page size the page count of `displayProducts`
is the ceiling of the number of filtered products over the page size; it is 0
when the filtered collection is empty, and equals the maximum of 1 and that
ceiling whenever the filtered collection is not empty. -/
theorem displayProducts_totalPages_is_ceil (s : Store) (hsize : 0 < s.itemsPerPage) :
    (displayProducts s).totalPages = ⌈(s.filteredProducts.length : ℚ) / s.itemsPerPage⌉₊ ∧
    (s.filteredProducts = [] → (displayProducts s).totalPages = 0) ∧
    (s.filteredProducts ≠ [] → (displayProducts s).totalPages =
      max 1 ⌈(s.filteredProducts.length : ℚ) / s.itemsPerPage⌉₊) := by
  have hpq : (0 : ℚ) < s.itemsPerPage := by exact_mod_cast hsize
  have h : (displayProducts s).totalPages =
      ⌈(s.filteredProducts.length : ℚ) / s.itemsPerPage⌉₊ := by
    simp only [displayProducts, length_sortedProducts]
    exact ceilDiv_eq_ceil _ _ hsize
  refine ⟨h, ?_, ?_⟩
  · intro he
    rw [h, he]
    simp
  · intro hne
    rw [h]
    have hlen : 0 < s.filteredProducts.length := List.length_pos.2 hne
    have hpos : 0 < ⌈(s.filteredProducts.length : ℚ) / s.itemsPerPage⌉₊ := by
      rw [Nat.ceil_pos]
      exact div_pos (by exact_mod_cast hlen) hpq
    exact (max_eq_right hpos).symm

/-- C7 (amended) at the example store. -/
theorem displayProducts_totalPages_is_ceil_witness :
    0 < shop.itemsPerPage ∧
    (displayProducts shop).totalPages = ⌈(shop.filteredProducts.length : ℚ) / shop.itemsPerPage⌉₊ :=
  ⟨by decide, (displayProducts_totalPages_is_ceil shop (by decide)).1⟩

/-- C7 fails as stated: with no filtered product and the page size 10 the page
count of `displayProducts` is 0, not the maximum of 1 and the ceiling. -/
theorem displayProducts_totalPages_empty_is_zero :
    0 < (initialStore .missing).itemsPerPage ∧
    (initialStore .missing).filteredProducts = [] ∧
    (displayProducts (initialStore .missing)).totalPages = 0 ∧
    (displayProducts (initialStore .missing)).totalPages ≠
      max 1 ⌈((initialStore .missing).filteredProducts.length : ℚ) /
        (initialStore .missing).itemsPerPage⌉₊ := by
  refine ⟨by decide, rfl, by decide, ?_⟩
  have h0 : (displayProducts (initialStore .missing)).totalPages = 0 := by decide
  rw [h0]
  intro h
  have h1 : 1 ≤ max 1 ⌈((initialStore .missing).filteredProducts.length : ℚ) /
        (initialStore .missing).itemsPerPage⌉₊ := le_max_left _ _
  omega

/-- C8 fails on the code: after eleven shirts are loaded, searched for "shirt",
page 2 is opened and its only product is renamed to "Hat", the current page is
still 2 while ten filtered products at page size 10 make one page, and the
window `displayProducts` cuts is empty. -/
theorem updateProduct_leaves_page_out_of_range :
    renameOnLastPage.currentPage = 2 ∧
    renameOnLastPage.itemsPerPage = 10 ∧
    renameOnLastPage.filteredProducts.length = 10 ∧
    (displayProducts renameOnLastPage).totalPages = 1 ∧
    max 1 ⌈(renameOnLastPage.filteredProducts.length : ℚ) / renameOnLastPage.itemsPerPage⌉₊ = 1 ∧
    ¬ renameOnLastPage.currentPage ≤
      max 1 ⌈(renameOnLastPage.filteredProducts.length : ℚ) / renameOnLastPage.itemsPerPage⌉₊ ∧
    (displayProducts renameOnLastPage).startIndex = 10 ∧
    (displayProducts renameOnLastPage).rows = [] := by
  have hpage : renameOnLastPage.currentPage = 2 := by decide
  have hsize : renameOnLastPage.itemsPerPage = 10 := by decide
  have hlen : renameOnLastPage.filteredProducts.length = 10 := by decide
  have hceil : max 1 ⌈(renameOnLastPage.filteredProducts.length : ℚ) /
      renameOnLastPage.itemsPerPage⌉₊ = 1 := by
    rw [hlen, hsize]
    norm_num
  refine ⟨hpage, hsize, hlen, by decide, hceil, ?_, by decide, by decide⟩
  rw [hceil, hpage]
  decide

/-- C9: `sortProducts column` on the current sort column keeps the column and
flips the direction (asc to desc, desc to asc); on any other column, or when
no column is set, the column becomes `column` and the direction asc. -/
theorem sortProducts_toggles_or_resets (s : Store) (column : String) :
    (s.sortColumn = some column →
      (sortProducts s column).sortColumn = some column ∧
      (s.sortDirection = .asc → (sortProducts s column).sortDirection = .desc) ∧
      (s.sortDirection = .desc → (sortProducts s column).sortDirection = .asc)) ∧
    (s.sortColumn ≠ some column →
      (sortProducts s column).sortColumn = some column ∧
      (sortProducts s column).sortDirection = .asc) := by
  constructor
  · intro h
    simp only [sortProducts, h, if_true]
    refine ⟨trivial, ?_, ?_⟩ <;> intro hd <;> simp [hd]
  · intro h
    simp only [sortProducts, h, if_false]
    exact ⟨trivial, trivial⟩

/-- C9 at the example store: the first click on the price column sorts
ascending, the second descending. -/
theorem sortProducts_toggles_or_resets_witness :
    shop.sortColumn ≠ some "price" ∧
    (sortProducts shop "price").sortColumn = some "price" ∧
    (sortProducts shop "price").sortDirection = .asc :=
  ⟨by decide, (sortProducts_toggles_or_resets shop "price").2 (by decide)⟩

/-- C10 (amended): when no price of the filtered collection is `NaN`, with the sort
column `price` and the direction asc the sorted sequence of `displayProducts`
is a permutation of the filtered collection in non-decreasing price order;
after `sortProducts "price"` it is a permutation of the same collection in
non-increasing price order, and the rows shown are its first page. -/
theorem sort_by_price_orders_products (s : Store)
    (hprices : ∀ p ∈ s.filteredProducts, p.price ≠ .nan)
    (hcol : s.sortColumn = some "price") (hdir : s.sortDirection = .asc) :
    (sortedProducts s).Perm s.filteredProducts ∧
    (sortedProducts s).Pairwise (fun a b => a.price.le b.price = true) ∧
    (sortedProducts (sortProducts s "price")).Perm s.filteredProducts ∧
    (sortedProducts (sortProducts s "price")).Pairwise (fun a b => b.price.le a.price = true) ∧
    (displayProducts (sortProducts s "price")).rows =
      (sortedProducts (sortProducts s "price")).take s.itemsPerPage := by
  have hasc := sortedProducts_price s .asc hcol hdir
  have hdesc : sortedProducts (sortProducts s "price") =
      arraySort (compareProducts "price" .desc) s.filteredProducts := by
    simp [sortedProducts, sortProducts, hcol, hdir, strTruthy]
  have hrows : (displayProducts (sortProducts s "price")).rows =
      (sortedProducts (sortProducts s "price")).take s.itemsPerPage := by
    have hpage : (sortProducts s "price").currentPage = 1 := by
      simp [sortProducts, hcol]
    have hsize : (sortProducts s "price").itemsPerPage = s.itemsPerPage := by
      simp [sortProducts, hcol]
    simp only [displayProducts, slice, hpage, hsize, Nat.sub_self, Nat.zero_mul, Nat.zero_add,
      List.drop_zero, Nat.sub_zero]
    rcases Nat.le_total s.itemsPerPage (sortedProducts (sortProducts s "price")).length with h | h
    · rw [Nat.min_eq_left h]
    · rw [Nat.min_eq_right h, List.take_of_length_le (le_refl _), List.take_of_length_le h]
  refine ⟨?_, ?_, ?_, ?_, hrows⟩
  · rw [hasc]; exact arraySort_perm _ _
  · rw [hasc]; exact arraySort_price_asc _ hprices
  · rw [hdesc]; exact arraySort_perm _ _
  · rw [hdesc]; exact arraySort_price_desc _ hprices

/-- C10 (amended) at the example store: Shirt (10) and Shoe (5) show as Shoe, Shirt and
after the second click as Shirt, Shoe. -/
theorem sort_by_price_orders_products_witness :
    (∀ p ∈ (sortProducts shop "price").filteredProducts, p.price ≠ .nan) ∧
    (sortProducts shop "price").sortColumn = some "price" ∧
    (sortProducts shop "price").sortDirection = .asc ∧
    sortedProducts (sortProducts shop "price") = [shoe, shirt] ∧
    sortedProducts (sortProducts (sortProducts shop "price") "price") = [shirt, shoe] ∧
    (sortedProducts (sortProducts (sortProducts shop "price") "price")).Pairwise
      (fun a b => b.price.le a.price = true) :=
  ⟨by decide, by decide, by decide, by decide, by decide,
    (sort_by_price_orders_products (sortProducts shop "price") (by decide) (by decide)
      (by decide)).2.2.2.1⟩

/-- C10 fails as stated: after a product was saved with an empty price field its
price is `NaN`, the comparator answers 0 for every pair with it, and sorting
the prices 3, `NaN`, 1 by price ascending leaves them in that order, 3 before
1, which is not non-decreasing. -/
theorem sort_by_price_with_nan_stays_unsorted :
    blankPriceRun.sortColumn = some "price" ∧
    blankPriceRun.sortDirection = .asc ∧
    blankPriceRun.filteredProducts.map (fun p => p.price) = [.fin 3, .nan, .fin 1] ∧
    (sortedProducts blankPriceRun).map (fun p => p.price) = [.fin 3, .nan, .fin 1] ∧
    (displayProducts blankPriceRun).rows.map (fun p => p.price) = [.fin 3, .nan, .fin 1] ∧
    ¬ (sortedProducts blankPriceRun).Pairwise (fun a b => a.price.le b.price = true) := by
  refine ⟨by decide, by decide, by decide, by decide, by decide, by decide⟩

/-- C11: `filterProducts`, `sortProducts` and the page-size change handler
each leave the current page equal to 1, whatever it was before; so do the two
listeners of the search box, which call `filterProducts`. -/
theorem view_parameter_change_resets_page (s : Store) :
    (∀ term, (filterProducts s term).currentPage = 1) ∧
    (∀ column, (sortProducts s column).currentPage = 1) ∧
    (∀ n, (itemsPerPageHandler s n).currentPage = 1 ∧ (itemsPerPageHandler s n).itemsPerPage = n) ∧
    (∀ value, (searchInputHandler s value).currentPage = 1) ∧
    (clearSearchHandler s).currentPage = 1 := by
  refine ⟨fun _ => rfl, ?_, fun _ => ⟨rfl, rfl⟩, fun _ => rfl, rfl⟩
  intro column
  simp only [sortProducts]
  split <;> rfl

/-- C12: in every state the products `exportToCSV` writes are exactly the rows
`displayProducts` renders: the same sort applied to the filtered collection
and the same window of the current page. -/
theorem exportToCSV_eq_displayed_rows (s : Store) :
    exportToCSV s = (displayProducts s).rows := by
  cases hc : s.sortColumn with
  | none => simp only [exportToCSV, displayProducts, sortedProducts, hc]
  | some column =>
    cases ht : strTruthy column with
    | true =>
      simp only [exportToCSV, displayProducts, sortedProducts, hc, ht, if_true]
      rfl
    | false =>
      simp only [exportToCSV, displayProducts, sortedProducts, hc, ht, Bool.false_eq_true,
        if_false]

/-- C13: when no record carries the form's id, `updateProduct` sends the
request and changes nothing else on any outcome: `allProducts`,
`filteredProducts` and the local storage entry are as before, no storage write
happens, and one of the three outcome messages is shown. -/
theorem updateProduct_unknown_id_is_noop (s : Store) (r : FetchResult Product) (f : UpdateForm)
    (habsent : f.id ∉ s.allProducts.map (fun p => p.id)) :
    (updateProduct s r f).1.allProducts = s.allProducts ∧
    (updateProduct s r f).1.filteredProducts = s.filteredProducts ∧
    (updateProduct s r f).1.storage = s.storage ∧
    (updateProduct s r f).1.storageWrites = s.storageWrites ∧
    (updateProduct s r f).1 = { s with remoteCalls := s.remoteCalls + 1 } ∧
    (updateProduct s r f).2 ∈
      [(⟨"Cập nhật sản phẩm thành công!", "success"⟩ : Message),
        ⟨"Cập nhật local thành công!", "warning"⟩,
        ⟨"Đã cập nhật dữ liệu local!", "info"⟩] := by
  have h : (updateProduct s r f).1 = { s with remoteCalls := s.remoteCalls + 1 } := by
    rw [updateProduct_fst, if_neg habsent]
  refine ⟨?_, ?_, ?_, ?_, h, updateProduct_snd_mem s r f⟩ <;> rw [h]

/-- C13 at the example store: an update for the unknown id 99. -/
theorem updateProduct_unknown_id_is_noop_witness :
    (99 : Int) ∉ shop.allProducts.map (fun p => p.id) ∧
    (updateProduct shop .exception ⟨99, "Hat", .fin 1, ""⟩).1.allProducts = shop.allProducts ∧
    (updateProduct shop .exception ⟨99, "Hat", .fin 1, ""⟩).1.storageWrites = shop.storageWrites :=
  ⟨by decide,
    (updateProduct_unknown_id_is_noop shop .exception ⟨99, "Hat", .fin 1, ""⟩ (by decide)).1,
    (updateProduct_unknown_id_is_noop shop .exception ⟨99, "Hat", .fin 1, ""⟩ (by decide)).2.2.2.1⟩

/-- C14: `loadProducts` adopts a non-empty collection from local storage
without a request; otherwise it sends the list request, and on a success
status adopts the result and saves it to local storage, while on an error
status or an exception it leaves `allProducts` as it was (empty at startup)
and raises the load error. -/
theorem loadProducts_mirror_then_remote (s : Store) (r : FetchResult (List Product)) :
    (∀ stored, loadFromStorage s.storage = some stored → stored ≠ [] →
      (loadProducts s r).allProducts = stored ∧
      (loadProducts s r).filteredProducts = stored ∧
      (loadProducts s r).remoteCalls = s.remoteCalls ∧
      (loadProducts s r).loadError = s.loadError) ∧
    ((loadFromStorage s.storage = none ∨ loadFromStorage s.storage = some []) →
      (loadProducts s r).remoteCalls = s.remoteCalls + 1 ∧
      (∀ status products, r = .response status products → responseOk status = true →
        (loadProducts s r).allProducts = products ∧
        (loadProducts s r).filteredProducts = products ∧
        (loadProducts s r).storage = .json products ∧
        (loadProducts s r).storageWrites = s.storageWrites + 1 ∧
        (loadProducts s r).loadError = s.loadError) ∧
      ((r = .exception ∨ ∃ status products, r = .response status products ∧
          responseOk status = false) →
        (loadProducts s r).allProducts = s.allProducts ∧
        (loadProducts s r).storage = s.storage ∧
        (loadProducts s r).loadError = true)) ∧
    (∀ storage, (initialStore storage).allProducts = [] ∧
      (initialStore storage).loadError = false) := by
  refine ⟨?_, ?_, fun _ => ⟨rfl, rfl⟩⟩
  · intro stored hload hne
    rw [loadProducts_of_mirror s r stored hload hne]
    exact ⟨rfl, rfl, rfl, rfl⟩
  · intro hload
    rw [loadProducts_of_no_mirror s r hload]
    refine ⟨?_, ?_, ?_⟩
    · cases r with
      | response status products =>
        cases hok : responseOk status <;> simp only [hok, Bool.false_eq_true, if_false, if_true]
      | exception => rfl
    · intro status products hr hok
      subst hr
      simp [hok]
    · rintro (hr | ⟨status, products, hr, hok⟩)
      · subst hr
        exact ⟨rfl, rfl, rfl⟩
      · subst hr
        simp [hok]

/-- C14 at a store whose local storage holds the shirt and the shoe. -/
theorem loadProducts_mirror_then_remote_witness :
    loadFromStorage (initialStore (.json [shirt, shoe])).storage = some [shirt, shoe] ∧
    [shirt, shoe] ≠ [] ∧
    (loadProducts (initialStore (.json [shirt, shoe])) .exception).allProducts = [shirt, shoe] ∧
    (loadProducts (initialStore (.json [shirt, shoe])) .exception).remoteCalls = 0 :=
  ⟨rfl, by decide,
    ((loadProducts_mirror_then_remote (initialStore (.json [shirt, shoe])) .exception).1
      [shirt, shoe] rfl (by decide)).1,
    ((loadProducts_mirror_then_remote (initialStore (.json [shirt, shoe])) .exception).1
      [shirt, shoe] rfl (by decide)).2.2.1⟩

/-- C15: on every outcome `updateProduct` keeps the length, the order and the ids
of `allProducts`; every record keeps its id, category and images, and every
record other than the first one carrying the form's id is unchanged; the page,
the page size, the sort settings and the search box are untouched. -/
theorem updateProduct_changes_only_patched_fields (s : Store) (r : FetchResult Product)
    (f : UpdateForm) :
    (updateProduct s r f).1.allProducts.length = s.allProducts.length ∧
    (updateProduct s r f).1.allProducts.map (fun p => p.id) = s.allProducts.map (fun p => p.id) ∧
    (∀ i p, s.allProducts.get? i = some p →
      ∃ q, (updateProduct s r f).1.allProducts.get? i = some q ∧
        q.id = p.id ∧ q.category = p.category ∧ q.images = p.images ∧
        ((p.id ≠ f.id ∨ ∃ j p', j < i ∧ s.allProducts.get? j = some p' ∧ p'.id = f.id) →
          q = p)) ∧
    (updateProduct s r f).1.currentPage = s.currentPage ∧
    (updateProduct s r f).1.itemsPerPage = s.itemsPerPage ∧
    (updateProduct s r f).1.sortColumn = s.sortColumn ∧
    (updateProduct s r f).1.sortDirection = s.sortDirection ∧
    (updateProduct s r f).1.searchInput = s.searchInput := by
  have hview : (updateProduct s r f).1.currentPage = s.currentPage ∧
      (updateProduct s r f).1.itemsPerPage = s.itemsPerPage ∧
      (updateProduct s r f).1.sortColumn = s.sortColumn ∧
      (updateProduct s r f).1.sortDirection = s.sortDirection ∧
      (updateProduct s r f).1.searchInput = s.searchInput := by
    rw [updateProduct_fst]
    split <;> exact ⟨rfl, rfl, rfl, rfl, rfl⟩
  rw [updateProduct_allProducts]
  exact ⟨length_replaceFirst _ _ _, map_id_replaceFirst f _, get?_replaceFirst f _, hview⟩

/-- C15 at the example store: a rename of the shirt leaves the shoe, at index 1,
as it was. -/
theorem updateProduct_changes_only_patched_fields_witness :
    shop.allProducts.get? 1 = some shoe ∧ shoe.id ≠ 1 ∧
    ∃ q, (updateProduct shop .exception ⟨1, "NewShirt", .fin 12, ""⟩).1.allProducts.get? 1 =
        some q ∧
      q.id = shoe.id ∧ q.category = shoe.category ∧ q.images = shoe.images ∧
      ((shoe.id ≠ 1 ∨ ∃ j p', j < 1 ∧ shop.allProducts.get? j = some p' ∧ p'.id = 1) →
        q = shoe) :=
  ⟨rfl, by decide,
    (updateProduct_changes_only_patched_fields shop .exception
      ⟨1, "NewShirt", .fin 12, ""⟩).2.2.1 1 shoe rfl⟩

end Catalog
